import Mathlib

/-!
Verification of the borrow/return lifecycle (LoanLedger) of the
library-catalogue backend.

The embedding models the three MongoDB collections (`documents`,
`utilisateurs`, `emprunts`) as Lean lists of records, and the four
state-changing routes as pure functions from a store state to a pair of
the new store state and the HTTP-level result:

* `emprunter`       — POST /api/documents/:id/emprunter  (server.js)
* `retourner`       — POST /api/documents/:id/retourner  (server.js)
* `toggle`          — POST /:id/toggle                   (routes/documents.js)
* `ajouterDocument` — POST /api/admin/documents          (server.js)

MongoDB primitives are modelled as: `findOne` = `List.find?` (first
matching record in natural order), `updateOne` = `updateFirst` (update
the first matching record), `insertOne` = list append with a freshly
generated `_id` (taken from a counter in the state; MongoDB guarantees
`_id` uniqueness per collection, captured by `clesUniques`).

Timestamps are natural numbers counting milliseconds; the JavaScript
`dateRetour.setDate(dateRetour.getDate() + 30)` is modelled as adding
30 days' worth of milliseconds.
-/

/-- A record of the `documents` collection, with the fields the lifecycle
reads or writes (as created by POST /api/admin/documents). -/
structure Document where
  id : Nat
  titre : String
  auteur : String
  type_de_document : String
  annee : Int
  disponible : Bool
  FIELD9 : String
  reservations : Int
  emprunte_par : Option String
  date_emprunt : Option Nat
  date_ajout : Nat
deriving DecidableEq

/-- A record of the `utilisateurs` collection (lifecycle-relevant fields). -/
structure Utilisateur where
  id : Nat
  nom : String
  email : String
  role : String
  limite_emprunts : Int
  emprunts_actuels : Int
deriving DecidableEq

/-- A record of the `emprunts` collection, as created by the borrow route. -/
structure Emprunt where
  id : Nat
  document_id : Nat
  document_titre : String
  utilisateur_id : Nat
  utilisateur_email : String
  date_emprunt : Nat
  date_retour_prevu : Nat
  date_retour_reel : Option Nat
  statut : String
deriving DecidableEq

/-- The store state: the three collections plus the id generator for
loan records (MongoDB generates a fresh `_id` on each `insertOne`). -/
structure DB where
  documents : List Document
  utilisateurs : List Utilisateur
  emprunts : List Emprunt
  nextEmpruntId : Nat
deriving DecidableEq

/-- MongoDB `updateOne`: apply `f` to the first element satisfying `p`,
leave everything else unchanged. -/
def updateFirst (p : α → Bool) (f : α → α) : List α → List α
  | [] => []
  | x :: xs => if p x then f x :: xs else x :: updateFirst p f xs

/-- One day in milliseconds. -/
def jourMs : Nat := 86400000

/-- Business-rule errors of the borrow route (the route's early
`res.status(...)` returns: 'Utilisateur non trouvé',
`Limite d'emprunts atteinte (limit)`, 'Document non disponible'). -/
inductive EmpruntErreur where
  | utilisateurNonTrouve
  | limiteAtteinte (limite : Int)
  | documentNonDisponible
deriving DecidableEq

/-- Business-rule error of the return route
('Vous n'avez pas emprunté ce document'). -/
inductive RetourErreur where
  | pasEmprunte
deriving DecidableEq

/-- Error of the toggle route ('Document non trouvé'). -/
inductive ToggleErreur where
  | documentNonTrouve
deriving DecidableEq

/-- Error of the admin document-creation route ('Titre et auteur requis'). -/
inductive AjoutErreur where
  | champsRequis
deriving DecidableEq

/-- The `$set`/`$inc` update the borrow route applies to the document
(server.js lines 395-406). -/
def empruntMajDoc (user : Utilisateur) (now : Nat) (d : Document) : Document :=
  { d with
    FIELD9 := "emprunté"
    disponible := false
    emprunte_par := some user.email
    date_emprunt := some now
    reservations := d.reservations + 1 }

/-- The loan record the borrow route inserts (server.js lines 409-418). -/
def nouvelEmprunt (empruntId : Nat) (user : Utilisateur) (document : Document)
    (userId documentId now dateRetour : Nat) : Emprunt :=
  { id := empruntId
    document_id := documentId
    document_titre := document.titre
    utilisateur_id := userId
    utilisateur_email := user.email
    date_emprunt := now
    date_retour_prevu := dateRetour
    date_retour_reel := none
    statut := "emprunté" }

/-- The `$inc` of `emprunts_actuels` by 1 performed by the borrow route. -/
def incCompteur (u : Utilisateur) : Utilisateur :=
  { u with emprunts_actuels := u.emprunts_actuels + 1 }

/-- POST /api/documents/:id/emprunter (server.js lines 353-437).
Checks, in order: the user exists; `emprunts_actuels < limite_emprunts`;
a document with this id and `FIELD9 = "disponible"` exists. On success,
performs the three writes (document update, loan insert, user counter
increment) and answers with the computed return date. On failure the
route returns before any write, so the state component is `s` itself. -/
def emprunter (s : DB) (userId documentId : Nat) (now : Nat) :
    DB × Except EmpruntErreur Nat :=
  match s.utilisateurs.find? (fun u => u.id == userId) with
  | none => (s, Except.error EmpruntErreur.utilisateurNonTrouve)
  | some user =>
    if user.limite_emprunts ≤ user.emprunts_actuels then
      (s, Except.error (EmpruntErreur.limiteAtteinte user.limite_emprunts))
    else
      match s.documents.find?
          (fun d => d.id == documentId && d.FIELD9 == "disponible") with
      | none => (s, Except.error EmpruntErreur.documentNonDisponible)
      | some document =>
        let dateRetour := now + 30 * jourMs
        ({ documents :=
             updateFirst (fun d => d.id == documentId)
               (empruntMajDoc user now) s.documents
           emprunts := s.emprunts ++
             [nouvelEmprunt s.nextEmpruntId user document userId documentId
               now dateRetour]
           utilisateurs :=
             updateFirst (fun u => u.id == userId) incCompteur s.utilisateurs
           nextEmpruntId := s.nextEmpruntId + 1 },
         Except.ok dateRetour)

/-- The `$set` the return route applies to the document
(server.js lines 462-472). -/
def retourMajDoc (d : Document) : Document :=
  { d with
    FIELD9 := "disponible"
    disponible := true
    emprunte_par := none
    date_emprunt := none }

/-- The `$set` closing a loan (server.js lines 475-483). -/
def cloreEmprunt (now : Nat) (e : Emprunt) : Emprunt :=
  { e with date_retour_reel := some now, statut := "retourné" }

/-- The `$inc` of `emprunts_actuels` by -1 performed by the return route. -/
def decCompteur (u : Utilisateur) : Utilisateur :=
  { u with emprunts_actuels := u.emprunts_actuels - 1 }

/-- The predicate of the return route's loan lookup (server.js 448-452). -/
def estEmpruntActif (documentId userId : Nat) (e : Emprunt) : Bool :=
  e.document_id == documentId && e.utilisateur_id == userId &&
    e.statut == "emprunté"

/-- POST /api/documents/:id/retourner (server.js lines 440-502).
Looks for a loan with this document, this user and `statut = 'emprunté'`;
if none, fails before any write. Otherwise: resets the document's
availability fields, closes the loan (located by its `_id`), and
decrements the user's counter. -/
def retourner (s : DB) (userId documentId : Nat) (now : Nat) :
    DB × Except RetourErreur Unit :=
  match s.emprunts.find? (estEmpruntActif documentId userId) with
  | none => (s, Except.error RetourErreur.pasEmprunte)
  | some emprunt =>
    ({ documents :=
         updateFirst (fun d => d.id == documentId) retourMajDoc s.documents
       emprunts :=
         updateFirst (fun e => e.id == emprunt.id) (cloreEmprunt now) s.emprunts
       utilisateurs :=
         updateFirst (fun u => u.id == userId) decCompteur s.utilisateurs
       nextEmpruntId := s.nextEmpruntId },
     Except.ok ())

/-- POST /:id/toggle (routes/documents.js lines 20-29). Finds the
document; if absent answers 404. Otherwise flips `FIELD9` (`"emprunté"`
becomes `"disponible"`, anything else becomes `"emprunté"`) and writes
only that one field, answering with the new value. -/
def toggle (s : DB) (documentId : Nat) : DB × Except ToggleErreur String :=
  match s.documents.find? (fun d => d.id == documentId) with
  | none => (s, Except.error ToggleErreur.documentNonTrouve)
  | some doc =>
    let newValue := if doc.FIELD9 == "emprunté" then "disponible" else "emprunté"
    ({ s with
       documents :=
         updateFirst (fun d => d.id == doc.id)
           (fun d => { d with FIELD9 := newValue }) s.documents },
     Except.ok newValue)

/-- POST /api/admin/documents (server.js lines 604-643). Requires a
non-empty title and author (JavaScript falsiness of the strings),
then inserts a document that is available in both representations.
`docId` stands for the `_id` MongoDB generates for the insert,
`anneeCourante` for `new Date().getFullYear()`. -/
def ajouterDocument (s : DB) (docId : Nat) (titre auteur : String)
    (type_de_document : Option String) (annee : Option Int)
    (anneeCourante : Int) (now : Nat) : DB × Except AjoutErreur Nat :=
  if titre == "" || auteur == "" then
    (s, Except.error AjoutErreur.champsRequis)
  else
    ({ s with
       documents := s.documents ++
         [{ id := docId
            titre := titre
            auteur := auteur
            type_de_document := type_de_document.getD "Livre"
            annee := annee.getD anneeCourante
            disponible := true
            FIELD9 := "disponible"
            reservations := 0
            emprunte_par := none
            date_emprunt := none
            date_ajout := now }] },
     Except.ok docId)

/-- The overdue filter of GET /api/admin/dashboard (server.js lines
557-562): loans with `statut = 'emprunté'` and `date_retour_prevu`
strictly before `asOf`. -/
def empruntsEnRetard (s : DB) (asOf : Nat) : List Emprunt :=
  s.emprunts.filter
    (fun e => e.statut == "emprunté" && decide (e.date_retour_prevu < asOf))

/-- The aggregate numbers computed by GET /api/admin/dashboard. -/
structure Dashboard where
  totalDocuments : Nat
  documentsDisponibles : Nat
  totalUtilisateurs : Nat
  empruntsEnCours : Nat
  empruntsRetard : Nat
deriving DecidableEq

/-- GET /api/admin/dashboard (server.js lines 544-580): a pure read.
The route only issues `countDocuments` queries, so the state component
of the result is the input state itself. -/
def adminDashboard (s : DB) (now : Nat) : DB × Dashboard :=
  (s,
   { totalDocuments := s.documents.length
     documentsDisponibles :=
       (s.documents.filter (fun d => d.FIELD9 == "disponible")).length
     totalUtilisateurs := s.utilisateurs.length
     empruntsEnCours :=
       (s.emprunts.filter (fun e => e.statut == "emprunté")).length
     empruntsRetard := (empruntsEnRetard s now).length })

/-! ## Invariants -/

/-- The loans currently active (`statut = 'emprunté'`). -/
def actifs (es : List Emprunt) : List Emprunt :=
  es.filter (fun e => e.statut == "emprunté")

/-- Document ids of the active loans (with multiplicity). -/
def activeDocIds (es : List Emprunt) : List Nat :=
  (actifs es).map (fun e => e.document_id)

/-- User ids of the active loans (with multiplicity). -/
def activeUserIds (es : List Emprunt) : List Nat :=
  (actifs es).map (fun e => e.utilisateur_id)

/-- Number of active loans for a given document id. -/
def nbEmpruntsActifsDoc (es : List Emprunt) (documentId : Nat) : Nat :=
  (activeDocIds es).count documentId

/-- Number of active loans held by a given user id. -/
def nbEmpruntsActifsUtilisateur (es : List Emprunt) (userId : Nat) : Nat :=
  (activeUserIds es).count userId

/-- Spec invariant I1: a document is marked borrowed iff exactly one
active loan exists for it. -/
def I1 (s : DB) : Prop :=
  ∀ d ∈ s.documents,
    (d.FIELD9 = "emprunté" ↔ nbEmpruntsActifsDoc s.emprunts d.id = 1)

/-- Spec invariant I2: a user's counter equals the number of that user's
active loans. -/
def I2 (s : DB) : Prop :=
  ∀ u ∈ s.utilisateurs,
    u.emprunts_actuels = (nbEmpruntsActifsUtilisateur s.emprunts u.id : Int)

/-- Spec invariant I3: no user's counter exceeds that user's limit. -/
def I3 (s : DB) : Prop :=
  ∀ u ∈ s.utilisateurs, u.emprunts_actuels ≤ u.limite_emprunts

/-- At most one active loan per document: no two distinct active loans
share a `document_id`. -/
def uniciteEmpruntsActifs (s : DB) : Prop :=
  (activeDocIds s.emprunts).Nodup

/-- MongoDB's per-collection uniqueness of `_id`, plus freshness of the
loan-id generator. -/
def clesUniques (s : DB) : Prop :=
  (s.documents.map (fun d => d.id)).Nodup ∧
  (s.utilisateurs.map (fun u => u.id)).Nodup ∧
  (s.emprunts.map (fun e => e.id)).Nodup ∧
  ∀ e ∈ s.emprunts, e.id < s.nextEmpruntId

/-- The two availability representations of a document agree: the
boolean `disponible` is true iff `FIELD9 = "disponible"`. -/
def SyncDoc (d : Document) : Prop :=
  d.disponible = true ↔ d.FIELD9 = "disponible"

instance [DecidableEq ε] [DecidableEq α] : DecidableEq (Except ε α) :=
  fun x y =>
    match x, y with
    | Except.error a, Except.error b =>
      if h : a = b then isTrue (by rw [h])
      else isFalse (fun hh => h (by injection hh))
    | Except.error _, Except.ok _ => isFalse (fun hh => Except.noConfusion hh)
    | Except.ok _, Except.error _ => isFalse (fun hh => Except.noConfusion hh)
    | Except.ok a, Except.ok b =>
      if h : a = b then isTrue (by rw [h])
      else isFalse (fun hh => h (by injection hh))

instance (s : DB) : Decidable (I1 s) := by
  unfold I1; infer_instance

instance (s : DB) : Decidable (I2 s) := by
  unfold I2; infer_instance

instance (s : DB) : Decidable (I3 s) := by
  unfold I3; infer_instance

instance (s : DB) : Decidable (uniciteEmpruntsActifs s) := by
  unfold uniciteEmpruntsActifs; infer_instance

instance (s : DB) : Decidable (clesUniques s) := by
  unfold clesUniques; infer_instance

instance (d : Document) : Decidable (SyncDoc d) := by
  unfold SyncDoc; infer_instance

/-! ## Concrete states for witnesses and counterexamples -/

/-- An available document with a given id. -/
def docDisponible (i : Nat) : Document :=
  { id := i
    titre := "T"
    auteur := "A"
    type_de_document := "Livre"
    annee := 2024
    disponible := true
    FIELD9 := "disponible"
    reservations := 0
    emprunte_par := none
    date_emprunt := none
    date_ajout := 0 }

/-- A user with a given id, current counter and limit. -/
def utilisateurSimple (i : Nat) (cnt limite : Int) : Utilisateur :=
  { id := i
    nom := "N"
    email := "u@test.fr"
    role := "user"
    limite_emprunts := limite
    emprunts_actuels := cnt }

/-- An active loan record. -/
def empruntActif (eid docId userId : Nat) : Emprunt :=
  { id := eid
    document_id := docId
    document_titre := "T"
    utilisateur_id := userId
    utilisateur_email := "u@test.fr"
    date_emprunt := 0
    date_retour_prevu := 30 * jourMs
    date_retour_reel := none
    statut := "emprunté" }

/-- A healthy store: one available document, one user with no loans. -/
def dbSain : DB :=
  { documents := [docDisponible 1]
    utilisateurs := [utilisateurSimple 1 0 3]
    emprunts := []
    nextEmpruntId := 0 }

/-- A store satisfying I1, I2 and I3 in which two active loans exist for
the same document while the document is marked available: I1 holds
because both sides of its iff are false. -/
def dbDeuxEmprunts : DB :=
  { documents := [docDisponible 1]
    utilisateurs :=
      [utilisateurSimple 10 1 5, utilisateurSimple 11 1 5,
       utilisateurSimple 12 0 5]
    emprunts := [empruntActif 100 1 10, empruntActif 101 1 11]
    nextEmpruntId := 102 }
/-- A document currently marked borrowed. -/
def docEmprunte (i : Nat) : Document :=
  { docDisponible i with
    FIELD9 := "emprunté"
    disponible := false
    emprunte_par := some "u@test.fr"
    date_emprunt := some 0
    reservations := 1 }

/-- A store with exactly one active loan: user 1 borrowed document 1. -/
def dbUnEmprunt : DB :=
  { documents := [docEmprunte 1]
    utilisateurs := [utilisateurSimple 1 1 3]
    emprunts := [empruntActif 10 1 1]
    nextEmpruntId := 11 }
/-- A store where user 5 already holds an active loan on document 1
while the document is (inconsistently) still marked available. -/
def dbPreEmprunt : DB :=
  { documents := [docDisponible 1]
    utilisateurs := [utilisateurSimple 5 1 5]
    emprunts := [empruntActif 50 1 5]
    nextEmpruntId := 51 }
/-- A store with a user whose email is visibly not the string form of
the user's id. -/
def dbAlice : DB :=
  { documents := [docDisponible 1]
    utilisateurs :=
      [{ id := 7
         nom := "Alice"
         email := "alice@test.fr"
         role := "user"
         limite_emprunts := 3
         emprunts_actuels := 0 }]
    emprunts := []
    nextEmpruntId := 0 }

/-! ## Helper lemmas -/

theorem updateFirst_of_none (p : α → Bool) (f : α → α) (l : List α)
    (h : l.find? p = none) : updateFirst p f l = l := by
  induction l with
  | nil => rfl
  | cons a as ih =>
    rw [List.find?_cons] at h
    cases hpa : p a with
    | true => rw [hpa] at h; simp at h
    | false =>
      rw [hpa] at h
      simp only [updateFirst, hpa, if_neg Bool.false_ne_true]
      rw [ih h]

theorem updateFirst_decomp (p : α → Bool) (f : α → α) (l : List α) (x : α)
    (h : l.find? p = some x) :
    ∃ l1 l2, l = l1 ++ x :: l2 ∧ (∀ y ∈ l1, p y = false) ∧
      updateFirst p f l = l1 ++ f x :: l2 := by
  induction l with
  | nil => simp at h
  | cons a as ih =>
    rw [List.find?_cons] at h
    cases hpa : p a with
    | true =>
      rw [hpa] at h
      simp only [if_pos rfl, Option.some.injEq] at h
      subst h
      exact ⟨[], as, by simp, by simp, by simp [updateFirst, hpa]⟩
    | false =>
      rw [hpa] at h
      simp only [if_neg Bool.false_ne_true] at h
      obtain ⟨l1, l2, hl, hl1, hu⟩ := ih h
      refine ⟨a :: l1, l2, by simp [hl], ?_, ?_⟩
      · intro y hy
        rcases List.mem_cons.mp hy with rfl | hy
        · exact hpa
        · exact hl1 y hy
      · simp only [updateFirst, hpa, if_neg Bool.false_ne_true, List.cons_append]
        rw [hu]

theorem eq_of_key_nodup {f : α → β} {l : List α} (h : (l.map f).Nodup)
    {a b : α} (ha : a ∈ l) (hb : b ∈ l) (hk : f a = f b) : a = b := by
  induction l with
  | nil => cases ha
  | cons c cs ih =>
    rw [List.map_cons, List.nodup_cons] at h
    rcases List.mem_cons.mp ha with rfl | ha'
    · rcases List.mem_cons.mp hb with rfl | hb'
      · rfl
      · exact absurd (hk ▸ List.mem_map_of_mem f hb') h.1
    · rcases List.mem_cons.mp hb with rfl | hb'
      · exact absurd (hk ▸ List.mem_map_of_mem f ha') h.1
      · exact ih h.2 ha' hb'

theorem key_not_in_rest {f : α → β} {l1 l2 : List α} {x : α}
    (h : (((l1 ++ x :: l2)).map f).Nodup) :
    ∀ y ∈ l1 ++ l2, f y ≠ f x := by
  rw [List.map_append, List.map_cons] at h
  have h2 := List.nodup_cons.mp (List.nodup_middle.mp h)
  intro y hy hfy
  apply h2.1
  rw [← hfy, ← List.map_append]
  exact List.mem_map_of_mem f hy

theorem find?_isSome_of_mem {p : α → Bool} {l : List α} {x : α}
    (hx : x ∈ l) (hp : p x = true) : ∃ y, l.find? p = some y := by
  cases hfind : l.find? p with
  | some y => exact ⟨y, rfl⟩
  | none => exact absurd hp (by simpa using List.find?_eq_none.mp hfind x hx)

theorem activeDocIds_append (es1 es2 : List Emprunt) :
    activeDocIds (es1 ++ es2) = activeDocIds es1 ++ activeDocIds es2 := by
  simp [activeDocIds, actifs, List.filter_append]

theorem activeUserIds_append (es1 es2 : List Emprunt) :
    activeUserIds (es1 ++ es2) = activeUserIds es1 ++ activeUserIds es2 := by
  simp [activeUserIds, actifs, List.filter_append]

theorem activeDocIds_cons_actif (e : Emprunt) (es : List Emprunt)
    (h : e.statut = "emprunté") :
    activeDocIds (e :: es) = e.document_id :: activeDocIds es := by
  simp [activeDocIds, actifs, List.filter_cons, h]

theorem activeDocIds_cons_inactif (e : Emprunt) (es : List Emprunt)
    (h : e.statut ≠ "emprunté") :
    activeDocIds (e :: es) = activeDocIds es := by
  simp [activeDocIds, actifs, List.filter_cons, h]

theorem activeUserIds_cons_actif (e : Emprunt) (es : List Emprunt)
    (h : e.statut = "emprunté") :
    activeUserIds (e :: es) = e.utilisateur_id :: activeUserIds es := by
  simp [activeUserIds, actifs, List.filter_cons, h]

theorem activeUserIds_cons_inactif (e : Emprunt) (es : List Emprunt)
    (h : e.statut ≠ "emprunté") :
    activeUserIds (e :: es) = activeUserIds es := by
  simp [activeUserIds, actifs, List.filter_cons, h]

/-! ## Case-analysis lemmas for the operations -/

theorem emprunter_ok_elim {s : DB} {uid did now : Nat} {s1 : DB} {due : Nat}
    (h : emprunter s uid did now = (s1, Except.ok due)) :
    ∃ user document,
      s.utilisateurs.find? (fun u => u.id == uid) = some user ∧
      ¬ user.limite_emprunts ≤ user.emprunts_actuels ∧
      s.documents.find?
        (fun d => d.id == did && d.FIELD9 == "disponible") = some document ∧
      due = now + 30 * jourMs ∧
      s1.documents =
        updateFirst (fun d => d.id == did) (empruntMajDoc user now)
          s.documents ∧
      s1.emprunts = s.emprunts ++
        [nouvelEmprunt s.nextEmpruntId user document uid did now
          (now + 30 * jourMs)] ∧
      s1.utilisateurs =
        updateFirst (fun u => u.id == uid) incCompteur s.utilisateurs ∧
      s1.nextEmpruntId = s.nextEmpruntId + 1 := by
  unfold emprunter at h
  split at h
  · simp at h
  next user hu =>
    split at h
    · simp at h
    next hlim =>
      split at h
      · simp at h
      next document hd =>
        simp only [Prod.mk.injEq, Except.ok.injEq] at h
        obtain ⟨hs1, hdue⟩ := h
        subst hs1
        exact ⟨user, document, hu, hlim, hd, hdue.symm, rfl, rfl, rfl, rfl⟩

theorem emprunter_erreur_elim {s : DB} {uid did now : Nat} {s1 : DB}
    {e : EmpruntErreur} (h : emprunter s uid did now = (s1, Except.error e)) :
    s1 = s := by
  unfold emprunter at h
  split at h
  · exact (Prod.mk.injEq .. ▸ h).1.symm ▸ rfl
  · split at h
    · exact ((Prod.mk.injEq .. ▸ h).1).symm ▸ rfl
    · split at h
      · exact ((Prod.mk.injEq .. ▸ h).1).symm ▸ rfl
      · simp at h

theorem retourner_ok_elim {s : DB} {uid did now : Nat} {s1 : DB}
    (h : retourner s uid did now = (s1, Except.ok ())) :
    ∃ emprunt,
      s.emprunts.find? (estEmpruntActif did uid) = some emprunt ∧
      s1.documents =
        updateFirst (fun d => d.id == did) retourMajDoc s.documents ∧
      s1.emprunts =
        updateFirst (fun e => e.id == emprunt.id) (cloreEmprunt now)
          s.emprunts ∧
      s1.utilisateurs =
        updateFirst (fun u => u.id == uid) decCompteur s.utilisateurs ∧
      s1.nextEmpruntId = s.nextEmpruntId := by
  unfold retourner at h
  split at h
  · simp at h
  next emprunt he =>
    simp only [Prod.mk.injEq] at h
    obtain ⟨hs1, -⟩ := h
    subst hs1
    exact ⟨emprunt, he, rfl, rfl, rfl, rfl⟩

theorem retourner_erreur_elim {s : DB} {uid did now : Nat} {s1 : DB}
    {e : RetourErreur} (h : retourner s uid did now = (s1, Except.error e)) :
    s1 = s := by
  unfold retourner at h
  split at h
  · exact ((Prod.mk.injEq .. ▸ h).1).symm ▸ rfl
  · simp at h

theorem count_append_singleton (l : List Nat) (a k : Nat) :
    (l ++ [a]).count k = l.count k + if k = a then 1 else 0 := by
  rw [List.count_append]
  simp only [List.count_cons, List.count_nil]
  by_cases h : k = a
  · simp [h]
  · have h2 : ¬ a = k := fun hh => h hh.symm
    simp [h, h2]

theorem count_append_cons (l1 l2 : List Nat) (a k : Nat) :
    (l1 ++ a :: l2).count k = l1.count k + l2.count k +
      if k = a then 1 else 0 := by
  rw [List.count_append]
  simp only [List.count_cons]
  by_cases h : k = a
  · simp [h]
    omega
  · have h2 : ¬ a = k := fun hh => h hh.symm
    simp [h, h2]

theorem not_mem_middle_of_nodup {l1 l2 : List Nat} {a : Nat}
    (h : (l1 ++ a :: l2).Nodup) : a ∉ l1 ++ l2 := by
  exact (List.nodup_cons.mp (List.nodup_middle.mp h)).1

theorem nodup_of_nodup_middle {l1 l2 : List Nat} {a : Nat}
    (h : (l1 ++ a :: l2).Nodup) : (l1 ++ l2).Nodup := by
  exact (List.nodup_cons.mp (List.nodup_middle.mp h)).2

theorem mem_middle_cases {l1 l2 : List α} {x y : α}
    (h : y ∈ l1 ++ x :: l2) : y = x ∨ y ∈ l1 ++ l2 := by
  rcases List.mem_append.mp h with h' | h'
  · exact Or.inr (List.mem_append.mpr (Or.inl h'))
  · rcases List.mem_cons.mp h' with h'' | h''
    · exact Or.inl h''
    · exact Or.inr (List.mem_append.mpr (Or.inr h''))

theorem mem_middle_of_mem_rest {l1 l2 : List α} (x : α) {y : α}
    (h : y ∈ l1 ++ l2) : y ∈ l1 ++ x :: l2 := by
  rcases List.mem_append.mp h with h' | h'
  · exact List.mem_append.mpr (Or.inl h')
  · exact List.mem_append.mpr (Or.inr (List.mem_cons.mpr (Or.inr h')))

theorem mem_updateFirst {p : α → Bool} {f : α → α} {l : List α} {y : α}
    (hy : y ∈ updateFirst p f l) : y ∈ l ∨ ∃ x ∈ l, y = f x := by
  induction l with
  | nil => simp [updateFirst] at hy
  | cons a as ih =>
    cases hpa : p a with
    | true =>
      rw [updateFirst, if_pos hpa] at hy
      rcases List.mem_cons.mp hy with rfl | hy'
      · exact Or.inr ⟨a, List.mem_cons_self a as, rfl⟩
      · exact Or.inl (List.mem_cons_of_mem a hy')
    | false =>
      rw [updateFirst, if_neg (by rw [hpa]; exact Bool.false_ne_true)] at hy
      rcases List.mem_cons.mp hy with rfl | hy'
      · exact Or.inl (List.mem_cons_self y as)
      · rcases ih hy' with h' | ⟨x, hx, hfx⟩
        · exact Or.inl (List.mem_cons_of_mem a h')
        · exact Or.inr ⟨x, List.mem_cons_of_mem a hx, hfx⟩

theorem emprunter_ok_preserve {s s1 : DB} {uid did now due : Nat}
    (hWF : clesUniques s) (h1 : I1 s) (hU : uniciteEmpruntsActifs s)
    (h2 : I2 s) (h3 : I3 s)
    (h : emprunter s uid did now = (s1, Except.ok due)) :
    I1 s1 ∧ uniciteEmpruntsActifs s1 ∧ I2 s1 ∧ I3 s1 := by
  obtain ⟨user, document, hu, hlim, hd, hdue, hdocs, hemps, husers, hnext⟩ :=
    emprunter_ok_elim h
  have huser_mem : user ∈ s.utilisateurs := List.mem_of_find?_eq_some hu
  have huser_id : user.id = uid := by simpa using List.find?_some hu
  have hdoc_mem : document ∈ s.documents := List.mem_of_find?_eq_some hd
  have hdoc_pred := List.find?_some hd
  rw [Bool.and_eq_true, beq_iff_eq, beq_iff_eq] at hdoc_pred
  obtain ⟨hdoc_id, hdoc_f9⟩ := hdoc_pred
  have hADI : activeDocIds s1.emprunts = activeDocIds s.emprunts ++ [did] := by
    rw [hemps, activeDocIds_append, activeDocIds_cons_actif _ _ (by rfl)]
    rfl
  have hAUI : activeUserIds s1.emprunts =
      activeUserIds s.emprunts ++ [uid] := by
    rw [hemps, activeUserIds_append, activeUserIds_cons_actif _ _ (by rfl)]
    rfl
  have hc_le : nbEmpruntsActifsDoc s.emprunts did ≤ 1 :=
    List.nodup_iff_count_le_one.mp hU did
  have hc0 : nbEmpruntsActifsDoc s.emprunts did = 0 := by
    by_cases hcd : nbEmpruntsActifsDoc s.emprunts did = 1
    · exfalso
      have := (h1 document hdoc_mem).mpr (by rw [hdoc_id]; exact hcd)
      rw [hdoc_f9] at this
      exact absurd this (by decide)
    · omega
  obtain ⟨d0, hfd⟩ := find?_isSome_of_mem (p := fun d => d.id == did) hdoc_mem
    (by simp [hdoc_id])
  have hd0_eq : d0 = document := by
    apply eq_of_key_nodup (f := fun d => d.id) hWF.1
      (List.mem_of_find?_eq_some hfd) hdoc_mem
    have hp := List.find?_some hfd
    simp only [beq_iff_eq] at hp
    rw [hp, hdoc_id]
  rw [hd0_eq] at hfd
  obtain ⟨l1, l2, hsplit, hl1, hupd⟩ :=
    updateFirst_decomp (fun d => d.id == did) (empruntMajDoc user now)
      s.documents document hfd
  obtain ⟨m1, m2, husplit, hm1, huupd⟩ :=
    updateFirst_decomp (fun u => u.id == uid) incCompteur s.utilisateurs user hu
  have hkeyD : ∀ y ∈ l1 ++ l2, y.id ≠ did := by
    have hnd := hWF.1
    rw [hsplit] at hnd
    intro y hy hEq
    exact key_not_in_rest (f := fun d => d.id) hnd y hy
      (show y.id = document.id by rw [hdoc_id]; exact hEq)
  have hkeyU : ∀ y ∈ m1 ++ m2, y.id ≠ uid := by
    have hnd := hWF.2.1
    rw [husplit] at hnd
    intro y hy hEq
    exact key_not_in_rest (f := fun u => u.id) hnd y hy
      (show y.id = user.id by rw [huser_id]; exact hEq)
  refine ⟨?_, ?_, ?_, ?_⟩
  · intro d' hd'
    rw [hdocs, hupd] at hd'
    rcases mem_middle_cases hd' with rfl | hrest
    · constructor
      · intro _
        show nbEmpruntsActifsDoc s1.emprunts document.id = 1
        rw [hdoc_id]
        unfold nbEmpruntsActifsDoc at hc0 ⊢
        rw [hADI, count_append_singleton, hc0]
        simp
      · intro _
        rfl
    · have hne : d'.id ≠ did := hkeyD d' hrest
      have hmemS : d' ∈ s.documents := by
        rw [hsplit]; exact mem_middle_of_mem_rest _ hrest
      have hcnt : nbEmpruntsActifsDoc s1.emprunts d'.id =
          nbEmpruntsActifsDoc s.emprunts d'.id := by
        unfold nbEmpruntsActifsDoc
        rw [hADI, count_append_singleton]
        simp [hne]
      rw [hcnt]
      exact h1 d' hmemS
  · unfold uniciteEmpruntsActifs
    rw [hADI, List.nodup_append]
    refine ⟨hU, List.nodup_singleton _, ?_⟩
    intro a ha hb
    simp only [List.mem_singleton] at hb
    subst hb
    unfold nbEmpruntsActifsDoc at hc0
    exact absurd ha (List.count_eq_zero.mp hc0)
  · intro u' hu'
    rw [husers, huupd] at hu'
    rcases mem_middle_cases hu' with rfl | hrest
    · show user.emprunts_actuels + 1 =
        (nbEmpruntsActifsUtilisateur s1.emprunts user.id : Int)
      rw [huser_id]
      unfold nbEmpruntsActifsUtilisateur
      rw [hAUI, count_append_singleton, if_pos rfl]
      have hh := h2 user huser_mem
      rw [huser_id] at hh
      unfold nbEmpruntsActifsUtilisateur at hh
      rw [hh]
      push_cast
      ring
    · have hne : u'.id ≠ uid := hkeyU u' hrest
      have hmemS : u' ∈ s.utilisateurs := by
        rw [husplit]; exact mem_middle_of_mem_rest _ hrest
      have hcnt : nbEmpruntsActifsUtilisateur s1.emprunts u'.id =
          nbEmpruntsActifsUtilisateur s.emprunts u'.id := by
        unfold nbEmpruntsActifsUtilisateur
        rw [hAUI, count_append_singleton]
        simp [hne]
      rw [hcnt]
      exact h2 u' hmemS
  · intro u' hu'
    rw [husers, huupd] at hu'
    rcases mem_middle_cases hu' with rfl | hrest
    · show user.emprunts_actuels + 1 ≤ user.limite_emprunts
      omega
    · exact h3 u' (by rw [husplit]; exact mem_middle_of_mem_rest _ hrest)

theorem retourner_ok_preserve {s s1 : DB} {uid did now : Nat}
    (hWF : clesUniques s) (h1 : I1 s) (hU : uniciteEmpruntsActifs s)
    (h2 : I2 s) (h3 : I3 s)
    (h : retourner s uid did now = (s1, Except.ok ())) :
    I1 s1 ∧ uniciteEmpruntsActifs s1 ∧ I2 s1 ∧ I3 s1 := by
  obtain ⟨emprunt, he, hdocs, hemps, husers, hnext⟩ := retourner_ok_elim h
  have hemp_mem : emprunt ∈ s.emprunts := List.mem_of_find?_eq_some he
  have hemp_pred := List.find?_some he
  unfold estEmpruntActif at hemp_pred
  rw [Bool.and_eq_true, Bool.and_eq_true, beq_iff_eq, beq_iff_eq,
    beq_iff_eq] at hemp_pred
  obtain ⟨⟨hedid, heuid⟩, hestatut⟩ := hemp_pred
  obtain ⟨e1, hfe⟩ := find?_isSome_of_mem (p := fun e => e.id == emprunt.id)
    hemp_mem (by simp)
  have he1_eq : e1 = emprunt := by
    apply eq_of_key_nodup (f := fun e => e.id) hWF.2.2.1
      (List.mem_of_find?_eq_some hfe) hemp_mem
    have hp := List.find?_some hfe
    simp only [beq_iff_eq] at hp
    exact hp
  rw [he1_eq] at hfe
  obtain ⟨k1, k2, hesplit, hk1, heupd⟩ :=
    updateFirst_decomp (fun e => e.id == emprunt.id) (cloreEmprunt now)
      s.emprunts emprunt hfe
  have hADI_old : activeDocIds s.emprunts =
      activeDocIds k1 ++ did :: activeDocIds k2 := by
    rw [hesplit, activeDocIds_append,
      activeDocIds_cons_actif _ _ hestatut, hedid]
  have hADI_new : activeDocIds s1.emprunts =
      activeDocIds k1 ++ activeDocIds k2 := by
    rw [hemps, heupd, activeDocIds_append,
      activeDocIds_cons_inactif _ _ (by simp [cloreEmprunt])]
  have hAUI_old : activeUserIds s.emprunts =
      activeUserIds k1 ++ uid :: activeUserIds k2 := by
    rw [hesplit, activeUserIds_append,
      activeUserIds_cons_actif _ _ hestatut, heuid]
  have hAUI_new : activeUserIds s1.emprunts =
      activeUserIds k1 ++ activeUserIds k2 := by
    rw [hemps, heupd, activeUserIds_append,
      activeUserIds_cons_inactif _ _ (by simp [cloreEmprunt])]
  have hcd_old : ∀ k, nbEmpruntsActifsDoc s.emprunts k =
      (activeDocIds k1).count k + (activeDocIds k2).count k +
        if k = did then 1 else 0 := by
    intro k
    unfold nbEmpruntsActifsDoc
    rw [hADI_old, count_append_cons]
  have hcd_new : ∀ k, nbEmpruntsActifsDoc s1.emprunts k =
      (activeDocIds k1).count k + (activeDocIds k2).count k := by
    intro k
    unfold nbEmpruntsActifsDoc
    rw [hADI_new, List.count_append]
  have hcu_old : ∀ k, nbEmpruntsActifsUtilisateur s.emprunts k =
      (activeUserIds k1).count k + (activeUserIds k2).count k +
        if k = uid then 1 else 0 := by
    intro k
    unfold nbEmpruntsActifsUtilisateur
    rw [hAUI_old, count_append_cons]
  have hcu_new : ∀ k, nbEmpruntsActifsUtilisateur s1.emprunts k =
      (activeUserIds k1).count k + (activeUserIds k2).count k := by
    intro k
    unfold nbEmpruntsActifsUtilisateur
    rw [hAUI_new, List.count_append]
  have hUold := hU
  unfold uniciteEmpruntsActifs at hUold
  rw [hADI_old] at hUold
  have hcd_new_did : nbEmpruntsActifsDoc s1.emprunts did = 0 := by
    have hnm := not_mem_middle_of_nodup hUold
    have hz1 : (activeDocIds k1).count did = 0 :=
      List.count_eq_zero.mpr (fun hm => hnm (List.mem_append.mpr (Or.inl hm)))
    have hz2 : (activeDocIds k2).count did = 0 :=
      List.count_eq_zero.mpr (fun hm => hnm (List.mem_append.mpr (Or.inr hm)))
    rw [hcd_new did, hz1, hz2]
  refine ⟨?_, ?_, ?_, ?_⟩
  · intro d' hd'
    rw [hdocs] at hd'
    cases hfd : s.documents.find? (fun d => d.id == did) with
    | none =>
      rw [updateFirst_of_none _ _ _ hfd] at hd'
      have hne : d'.id ≠ did := by
        intro hEq
        have := List.find?_eq_none.mp hfd d' hd'
        simp [hEq] at this
      have hcnt : nbEmpruntsActifsDoc s1.emprunts d'.id =
          nbEmpruntsActifsDoc s.emprunts d'.id := by
        rw [hcd_new d'.id, hcd_old d'.id]
        simp [hne]
      rw [hcnt]
      exact h1 d' hd'
    | some d0 =>
      have hd0_id : d0.id = did := by simpa using List.find?_some hfd
      obtain ⟨l1, l2, hdsplit, hl1, hdupd⟩ :=
        updateFirst_decomp (fun d => d.id == did) retourMajDoc
          s.documents d0 hfd
      rw [hdupd] at hd'
      rcases mem_middle_cases hd' with rfl | hrest
      · constructor
        · intro hcontra
          exact absurd hcontra (by simp [retourMajDoc])
        · intro hcnt
          exfalso
          rw [show (retourMajDoc d0).id = did from hd0_id] at hcnt
          rw [hcd_new_did] at hcnt
          exact absurd hcnt (by decide)
      · have hne : d'.id ≠ did := by
          have hnd := hWF.1
          rw [hdsplit] at hnd
          intro hEq
          exact key_not_in_rest (f := fun d => d.id) hnd d' hrest
            (show d'.id = d0.id by rw [hd0_id]; exact hEq)
        have hmemS : d' ∈ s.documents := by
          rw [hdsplit]; exact mem_middle_of_mem_rest _ hrest
        have hcnt : nbEmpruntsActifsDoc s1.emprunts d'.id =
            nbEmpruntsActifsDoc s.emprunts d'.id := by
          rw [hcd_new d'.id, hcd_old d'.id]
          simp [hne]
        rw [hcnt]
        exact h1 d' hmemS
  · unfold uniciteEmpruntsActifs
    rw [hADI_new]
    exact nodup_of_nodup_middle hUold
  · intro u' hu'
    rw [husers] at hu'
    cases hfu : s.utilisateurs.find? (fun u => u.id == uid) with
    | none =>
      rw [updateFirst_of_none _ _ _ hfu] at hu'
      have hne : u'.id ≠ uid := by
        intro hEq
        have := List.find?_eq_none.mp hfu u' hu'
        simp [hEq] at this
      have hcnt : nbEmpruntsActifsUtilisateur s1.emprunts u'.id =
          nbEmpruntsActifsUtilisateur s.emprunts u'.id := by
        rw [hcu_new u'.id, hcu_old u'.id]
        simp [hne]
      rw [hcnt]
      exact h2 u' hu'
    | some u0 =>
      have hu0_id : u0.id = uid := by simpa using List.find?_some hfu
      obtain ⟨m1, m2, husplit, hm1, huupd⟩ :=
        updateFirst_decomp (fun u => u.id == uid) decCompteur
          s.utilisateurs u0 hfu
      rw [huupd] at hu'
      rcases mem_middle_cases hu' with rfl | hrest
      · show u0.emprunts_actuels - 1 =
          (nbEmpruntsActifsUtilisateur s1.emprunts u0.id : Int)
        have hmem0 : u0 ∈ s.utilisateurs := by
          rw [husplit]
          exact List.mem_append.mpr (Or.inr (List.mem_cons_self _ _))
        have hh := h2 u0 hmem0
        rw [hu0_id] at hh ⊢
        rw [hcu_new uid]
        rw [hcu_old uid, if_pos rfl] at hh
        rw [hh]
        push_cast
        ring
      · have hne : u'.id ≠ uid := by
          have hnd := hWF.2.1
          rw [husplit] at hnd
          intro hEq
          exact key_not_in_rest (f := fun u => u.id) hnd u' hrest
            (show u'.id = u0.id by rw [hu0_id]; exact hEq)
        have hmemS : u' ∈ s.utilisateurs := by
          rw [husplit]; exact mem_middle_of_mem_rest _ hrest
        have hcnt : nbEmpruntsActifsUtilisateur s1.emprunts u'.id =
            nbEmpruntsActifsUtilisateur s.emprunts u'.id := by
          rw [hcu_new u'.id, hcu_old u'.id]
          simp [hne]
        rw [hcnt]
        exact h2 u' hmemS
  · intro u' hu'
    rw [husers] at hu'
    cases hfu : s.utilisateurs.find? (fun u => u.id == uid) with
    | none =>
      rw [updateFirst_of_none _ _ _ hfu] at hu'
      exact h3 u' hu'
    | some u0 =>
      obtain ⟨m1, m2, husplit, hm1, huupd⟩ :=
        updateFirst_decomp (fun u => u.id == uid) decCompteur
          s.utilisateurs u0 hfu
      rw [huupd] at hu'
      rcases mem_middle_cases hu' with rfl | hrest
      · show u0.emprunts_actuels - 1 ≤ u0.limite_emprunts
        have hmem0 : u0 ∈ s.utilisateurs := by
          rw [husplit]
          exact List.mem_append.mpr (Or.inr (List.mem_cons_self _ _))
        have := h3 u0 hmem0
        omega
      · exact h3 u' (by rw [husplit]; exact mem_middle_of_mem_rest _ hrest)

/-! ## Claims -/

/-- C1, counterexample: `dbDeuxEmprunts` satisfies I1, I2, I3 (and even
MongoDB key uniqueness), yet a successful Borrow from it leaves a state
violating I1 — so I1, I2, I3 alone are not preserved by every Borrow. -/
theorem claim_C1_contre_exemple :
    I1 dbDeuxEmprunts ∧ I2 dbDeuxEmprunts ∧ I3 dbDeuxEmprunts ∧
    clesUniques dbDeuxEmprunts ∧
    (emprunter dbDeuxEmprunts 12 1 0).2 = Except.ok (0 + 30 * jourMs) ∧
    ¬ I1 (emprunter dbDeuxEmprunts 12 1 0).1 := by
  decide

/-- C1 (amended): starting from any store state satisfying I1, I2, I3
and additionally the at-most-one-active-loan-per-document property
(`uniciteEmpruntsActifs`), with unique MongoDB keys, every Borrow and
every Return — succeeding or failing — leaves the store satisfying all
four properties. -/
theorem claim_C1 (s : DB) (userId documentId now : Nat)
    (hWF : clesUniques s) (h1 : I1 s) (hU : uniciteEmpruntsActifs s)
    (h2 : I2 s) (h3 : I3 s) :
    (I1 (emprunter s userId documentId now).1 ∧
     uniciteEmpruntsActifs (emprunter s userId documentId now).1 ∧
     I2 (emprunter s userId documentId now).1 ∧
     I3 (emprunter s userId documentId now).1) ∧
    (I1 (retourner s userId documentId now).1 ∧
     uniciteEmpruntsActifs (retourner s userId documentId now).1 ∧
     I2 (retourner s userId documentId now).1 ∧
     I3 (retourner s userId documentId now).1) := by
  constructor
  · rcases hb : emprunter s userId documentId now with ⟨s1, r⟩
    cases r with
    | error e =>
      rw [emprunter_erreur_elim hb]
      exact ⟨h1, hU, h2, h3⟩
    | ok due => exact emprunter_ok_preserve hWF h1 hU h2 h3 hb
  · rcases hb : retourner s userId documentId now with ⟨s1, r⟩
    cases r with
    | error e =>
      rw [retourner_erreur_elim hb]
      exact ⟨h1, hU, h2, h3⟩
    | ok u =>
      cases u
      exact retourner_ok_preserve hWF h1 hU h2 h3 hb

/-- Witness for C1 at the concrete healthy store. -/
theorem claim_C1_temoin :
    clesUniques dbSain ∧ I1 dbSain ∧ uniciteEmpruntsActifs dbSain ∧
    I2 dbSain ∧ I3 dbSain ∧
    I1 (emprunter dbSain 1 1 0).1 ∧ I2 (retourner dbSain 1 1 0).1 :=
  ⟨by decide, by decide, by decide, by decide, by decide,
   (claim_C1 dbSain 1 1 0 (by decide) (by decide) (by decide) (by decide)
     (by decide)).1.1,
   (claim_C1 dbSain 1 1 0 (by decide) (by decide) (by decide) (by decide)
     (by decide)).2.2.2.1⟩

/-- C9: whenever Borrow fails with any business-rule error (user not
found, borrow limit exceeded, document unavailable), no write has been
performed: the resulting store equals the store before the call, every
precondition check happening before the first write. -/
theorem claim_C9 (s : DB) (userId documentId now : Nat) (e : EmpruntErreur)
    (h : (emprunter s userId documentId now).2 = Except.error e) :
    (emprunter s userId documentId now).1 = s := by
  rcases hb : emprunter s userId documentId now with ⟨s1, r⟩
  rw [hb] at h
  cases r with
  | error e' => exact emprunter_erreur_elim hb
  | ok due => simp at h

/-- Witness for C9: borrowing with a nonexistent user id fails and
leaves the store unchanged. -/
theorem claim_C9_temoin :
    (emprunter dbSain 99 1 0).2 =
      Except.error EmpruntErreur.utilisateurNonTrouve ∧
    (emprunter dbSain 99 1 0).1 = dbSain :=
  ⟨by decide, claim_C9 dbSain 99 1 0 EmpruntErreur.utilisateurNonTrouve
    (by decide)⟩

/-- C3: Borrow checks its preconditions in the stated order, first
failure winning: UserNotFound when no user with this id exists;
otherwise BorrowLimitExceeded carrying the user's limit when the
counter has reached the limit, regardless of the document's existence
or availability; otherwise DocumentUnavailable when no document with
this id is available; and success (with the computed due date) exactly
when all three checks pass. -/
theorem claim_C3 (s : DB) (userId documentId now : Nat)
    (hWF : clesUniques s) :
    ((∀ u ∈ s.utilisateurs, u.id ≠ userId) →
      (emprunter s userId documentId now).2 =
        Except.error EmpruntErreur.utilisateurNonTrouve) ∧
    (∀ u ∈ s.utilisateurs, u.id = userId →
      u.limite_emprunts ≤ u.emprunts_actuels →
      (emprunter s userId documentId now).2 =
        Except.error (EmpruntErreur.limiteAtteinte u.limite_emprunts)) ∧
    (∀ u ∈ s.utilisateurs, u.id = userId →
      u.emprunts_actuels < u.limite_emprunts →
      (∀ d ∈ s.documents, d.id = documentId → d.FIELD9 ≠ "disponible") →
      (emprunter s userId documentId now).2 =
        Except.error EmpruntErreur.documentNonDisponible) ∧
    (∀ u ∈ s.utilisateurs, u.id = userId →
      u.emprunts_actuels < u.limite_emprunts →
      ∀ d ∈ s.documents, d.id = documentId → d.FIELD9 = "disponible" →
      (emprunter s userId documentId now).2 =
        Except.ok (now + 30 * jourMs)) := by
  refine ⟨?_, ?_, ?_, ?_⟩
  · intro hnone
    have hf : s.utilisateurs.find? (fun u => u.id == userId) = none :=
      List.find?_eq_none.mpr (fun u hu => by simp [hnone u hu])
    simp [emprunter, hf]
  · intro u hu huid hlim
    obtain ⟨u', hf⟩ := find?_isSome_of_mem (p := fun v => v.id == userId) hu
      (by simp [huid])
    have hu'_eq : u' = u := by
      apply eq_of_key_nodup (f := fun v => v.id) hWF.2.1
        (List.mem_of_find?_eq_some hf) hu
      have hp := List.find?_some hf
      simp only [beq_iff_eq] at hp
      rw [hp, huid]
    rw [hu'_eq] at hf
    simp [emprunter, hf, if_pos hlim]
  · intro u hu huid hcnt hdoc
    obtain ⟨u', hf⟩ := find?_isSome_of_mem (p := fun v => v.id == userId) hu
      (by simp [huid])
    have hu'_eq : u' = u := by
      apply eq_of_key_nodup (f := fun v => v.id) hWF.2.1
        (List.mem_of_find?_eq_some hf) hu
      have hp := List.find?_some hf
      simp only [beq_iff_eq] at hp
      rw [hp, huid]
    rw [hu'_eq] at hf
    have hfd : s.documents.find?
        (fun d => d.id == documentId && d.FIELD9 == "disponible") = none := by
      apply List.find?_eq_none.mpr
      intro d hd
      simp only [Bool.and_eq_true, beq_iff_eq, not_and]
      exact fun h1 => hdoc d hd h1
    simp [emprunter, hf, if_neg (not_le.mpr hcnt), hfd]
  · intro u hu huid hcnt d hd hdid hf9
    obtain ⟨u', hf⟩ := find?_isSome_of_mem (p := fun v => v.id == userId) hu
      (by simp [huid])
    have hu'_eq : u' = u := by
      apply eq_of_key_nodup (f := fun v => v.id) hWF.2.1
        (List.mem_of_find?_eq_some hf) hu
      have hp := List.find?_some hf
      simp only [beq_iff_eq] at hp
      rw [hp, huid]
    rw [hu'_eq] at hf
    obtain ⟨d0, hfd⟩ := find?_isSome_of_mem
      (p := fun x => x.id == documentId && x.FIELD9 == "disponible") hd
      (by simp [hdid, hf9])
    simp [emprunter, hf, if_neg (not_le.mpr hcnt), hfd]

/-- Witness for C3: in the healthy store every precondition holds and
the borrow succeeds with the 30-day due date. -/
theorem claim_C3_temoin :
    clesUniques dbSain ∧
    (emprunter dbSain 1 1 0).2 = Except.ok (0 + 30 * jourMs) :=
  ⟨by decide,
   (claim_C3 dbSain 1 1 0 (by decide)).2.2.2 (utilisateurSimple 1 0 3)
     (by decide) (by decide) (by decide) (docDisponible 1) (by decide)
     (by decide) (by decide)⟩

theorem emprunter_ok_decomp {s s1 : DB} {uid did now due : Nat}
    (hWF : clesUniques s)
    (h : emprunter s uid did now = (s1, Except.ok due)) :
    ∃ user document l1 l2 m1 m2,
      s.utilisateurs.find? (fun u => u.id == uid) = some user ∧
      ¬ user.limite_emprunts ≤ user.emprunts_actuels ∧
      user.id = uid ∧
      document.id = did ∧ document.FIELD9 = "disponible" ∧
      s.documents = l1 ++ document :: l2 ∧
      s.utilisateurs = m1 ++ user :: m2 ∧
      due = now + 30 * jourMs ∧
      s1.documents = l1 ++ empruntMajDoc user now document :: l2 ∧
      s1.emprunts = s.emprunts ++
        [nouvelEmprunt s.nextEmpruntId user document uid did now due] ∧
      s1.utilisateurs = m1 ++ incCompteur user :: m2 ∧
      s1.nextEmpruntId = s.nextEmpruntId + 1 ∧
      (∀ y ∈ l1 ++ l2, y.id ≠ did) ∧ (∀ y ∈ m1 ++ m2, y.id ≠ uid) := by
  obtain ⟨user, document, hu, hlim, hd, hdue, hdocs, hemps, husers, hnext⟩ :=
    emprunter_ok_elim h
  have huser_mem : user ∈ s.utilisateurs := List.mem_of_find?_eq_some hu
  have huser_id : user.id = uid := by simpa using List.find?_some hu
  have hdoc_mem : document ∈ s.documents := List.mem_of_find?_eq_some hd
  have hdoc_pred := List.find?_some hd
  rw [Bool.and_eq_true, beq_iff_eq, beq_iff_eq] at hdoc_pred
  obtain ⟨hdoc_id, hdoc_f9⟩ := hdoc_pred
  obtain ⟨d0, hfd⟩ := find?_isSome_of_mem (p := fun d => d.id == did) hdoc_mem
    (by simp [hdoc_id])
  have hd0_eq : d0 = document := by
    apply eq_of_key_nodup (f := fun d => d.id) hWF.1
      (List.mem_of_find?_eq_some hfd) hdoc_mem
    have hp := List.find?_some hfd
    simp only [beq_iff_eq] at hp
    rw [hp, hdoc_id]
  rw [hd0_eq] at hfd
  obtain ⟨l1, l2, hsplit, hl1, hupd⟩ :=
    updateFirst_decomp (fun d => d.id == did) (empruntMajDoc user now)
      s.documents document hfd
  obtain ⟨m1, m2, husplit, hm1, huupd⟩ :=
    updateFirst_decomp (fun u => u.id == uid) incCompteur s.utilisateurs user hu
  have hkeyD : ∀ y ∈ l1 ++ l2, y.id ≠ did := by
    have hnd := hWF.1
    rw [hsplit] at hnd
    intro y hy hEq
    exact key_not_in_rest (f := fun d => d.id) hnd y hy
      (show y.id = document.id by rw [hdoc_id]; exact hEq)
  have hkeyU : ∀ y ∈ m1 ++ m2, y.id ≠ uid := by
    have hnd := hWF.2.1
    rw [husplit] at hnd
    intro y hy hEq
    exact key_not_in_rest (f := fun u => u.id) hnd y hy
      (show y.id = user.id by rw [huser_id]; exact hEq)
  subst hdue
  exact ⟨user, document, l1, l2, m1, m2, hu, hlim, huser_id, hdoc_id,
    hdoc_f9, hsplit, husplit, rfl, by rw [hdocs, hupd],
    hemps, by rw [husers, huupd], hnext, hkeyD, hkeyU⟩

/-- C2 (amended): after a successful Borrow, the document is marked
borrowed with `emprunte_par` set to the borrowing user's email (not the
raw userId), its historical counter (`reservations`) is incremented by
exactly one, exactly one new Active loan for this document and user is
appended with a null return date, and the user's counter is incremented
by exactly one; everything else is untouched. -/
theorem claim_C2 (s : DB) (userId documentId now due : Nat)
    (hWF : clesUniques s)
    (h : (emprunter s userId documentId now).2 = Except.ok due) :
    ∃ user l1 document l2,
      s.utilisateurs.find? (fun u => u.id == userId) = some user ∧
      s.documents = l1 ++ document :: l2 ∧
      document.id = documentId ∧
      (emprunter s userId documentId now).1.documents =
        l1 ++ { document with
                FIELD9 := "emprunté"
                disponible := false
                emprunte_par := some user.email
                date_emprunt := some now
                reservations := document.reservations + 1 } :: l2 ∧
      (∃ n, (emprunter s userId documentId now).1.emprunts =
          s.emprunts ++ [n] ∧
        n.document_id = documentId ∧ n.utilisateur_id = userId ∧
        n.statut = "emprunté" ∧ n.date_retour_reel = none) ∧
      (∃ m1 m2, s.utilisateurs = m1 ++ user :: m2 ∧
        (emprunter s userId documentId now).1.utilisateurs =
          m1 ++ { user with
                  emprunts_actuels := user.emprunts_actuels + 1 } :: m2) := by
  rcases hb : emprunter s userId documentId now with ⟨s1, r⟩
  rw [hb] at h
  cases r with
  | error e => simp at h
  | ok d' =>
    have hd' : d' = due := by simpa using h
    subst hd'
    obtain ⟨user, document, l1, l2, m1, m2, hu, hlim, huid, hdid, hf9,
      hsplit, husplit, hdue, hdocs, hemps, husers, hnext, hkD, hkU⟩ :=
      emprunter_ok_decomp hWF hb
    exact ⟨user, l1, document, l2, hu, hsplit, hdid, hdocs,
      ⟨nouvelEmprunt s.nextEmpruntId user document userId documentId now d',
        hemps, rfl, rfl, rfl, rfl⟩,
      ⟨m1, m2, husplit, husers⟩⟩

/-- Witness for C2 at the healthy store. -/
theorem claim_C2_temoin :
    clesUniques dbSain ∧
    (emprunter dbSain 1 1 0).2 = Except.ok (0 + 30 * jourMs) ∧
    ∃ user l1 document l2,
      dbSain.utilisateurs.find? (fun u => u.id == 1) = some user ∧
      dbSain.documents = l1 ++ document :: l2 ∧
      document.id = 1 ∧
      (emprunter dbSain 1 1 0).1.documents =
        l1 ++ { document with
                FIELD9 := "emprunté"
                disponible := false
                emprunte_par := some user.email
                date_emprunt := some 0
                reservations := document.reservations + 1 } :: l2 ∧
      (∃ n, (emprunter dbSain 1 1 0).1.emprunts = dbSain.emprunts ++ [n] ∧
        n.document_id = 1 ∧ n.utilisateur_id = 1 ∧
        n.statut = "emprunté" ∧ n.date_retour_reel = none) ∧
      (∃ m1 m2, dbSain.utilisateurs = m1 ++ user :: m2 ∧
        (emprunter dbSain 1 1 0).1.utilisateurs =
          m1 ++ { user with
                  emprunts_actuels := user.emprunts_actuels + 1 } :: m2) :=
  ⟨by decide, by decide,
   claim_C2 dbSain 1 1 0 (0 + 30 * jourMs) (by decide) (by decide)⟩

/-- C2, counterexample to the claim as stated: after user 7 successfully
borrows document 1, the document's `emprunte_par` holds the user's
email, which is not the userId (in string form or otherwise). -/
theorem claim_C2_contre_exemple :
    (emprunter dbAlice 7 1 0).2 = Except.ok (0 + 30 * jourMs) ∧
    (emprunter dbAlice 7 1 0).1.documents.find? (fun d => d.id == 1) =
      some { docDisponible 1 with
             FIELD9 := "emprunté"
             disponible := false
             emprunte_par := some "alice@test.fr"
             date_emprunt := some 0
             reservations := 1 } ∧
    "alice@test.fr" ≠ toString 7 := by
  decide

theorem find?_append_of_none {p : α → Bool} {l1 : List α} (l2 : List α)
    (h : ∀ x ∈ l1, p x = false) : (l1 ++ l2).find? p = l2.find? p := by
  induction l1 with
  | nil => rfl
  | cons a as ih =>
    rw [List.cons_append, List.find?_cons, h a (List.mem_cons_self a as)]
    exact ih (fun x hx => h x (List.mem_cons_of_mem a hx))

theorem updateFirst_append_of_none {p : α → Bool} {f : α → α} {l1 : List α}
    (l2 : List α) (h : ∀ x ∈ l1, p x = false) :
    updateFirst p f (l1 ++ l2) = l1 ++ updateFirst p f l2 := by
  induction l1 with
  | nil => rfl
  | cons a as ih =>
    rw [List.cons_append]
    simp only [updateFirst, h a (List.mem_cons_self a as),
      if_neg Bool.false_ne_true]
    rw [ih (fun x hx => h x (List.mem_cons_of_mem a hx)), List.cons_append]

theorem updateFirst_cons_pos {p : α → Bool} {f : α → α} {x : α} (l : List α)
    (h : p x = true) : updateFirst p f (x :: l) = f x :: l := by
  simp [updateFirst, h]

theorem find?_cons_pos {p : α → Bool} {x : α} (l : List α)
    (h : p x = true) : (x :: l).find? p = some x := by
  rw [List.find?_cons, h]

/-- C5: Return fails with NoActiveLoan exactly when no Active loan for
this (document, user) pair exists — in particular a failing call leaves
the state unchanged — and after a Return that closed the only such
loan, an immediately repeated Return fails with NoActiveLoan and
changes nothing (no double decrement). -/
theorem claim_C5 (s : DB) (userId documentId now now2 : Nat)
    (hWF : clesUniques s) :
    ((retourner s userId documentId now).2 =
        Except.error RetourErreur.pasEmprunte ↔
      ∀ e ∈ s.emprunts, estEmpruntActif documentId userId e = false) ∧
    ((retourner s userId documentId now).2 =
        Except.error RetourErreur.pasEmprunte →
      (retourner s userId documentId now).1 = s) ∧
    (s.emprunts.countP (estEmpruntActif documentId userId) = 1 →
      (retourner s userId documentId now).2 = Except.ok () →
      (retourner (retourner s userId documentId now).1 userId documentId
          now2).2 = Except.error RetourErreur.pasEmprunte ∧
      (retourner (retourner s userId documentId now).1 userId documentId
          now2).1 = (retourner s userId documentId now).1) := by
  refine ⟨?_, ?_, ?_⟩
  · cases hf : s.emprunts.find? (estEmpruntActif documentId userId) with
    | none =>
      constructor
      · intro _
        intro e he
        have := List.find?_eq_none.mp hf e he
        simpa using this
      · intro _
        simp [retourner, hf]
    | some e0 =>
      constructor
      · intro hcontra
        exfalso
        rw [retourner, hf] at hcontra
        simp at hcontra
      · intro hall
        exfalso
        have := hall e0 (List.mem_of_find?_eq_some hf)
        rw [List.find?_some hf] at this
        exact absurd this (by decide)
  · intro herr
    rcases hb : retourner s userId documentId now with ⟨s1, r⟩
    rw [hb] at herr
    cases r with
    | error e => exact retourner_erreur_elim hb
    | ok u => simp at herr
  · intro hcount hok
    rcases hb : retourner s userId documentId now with ⟨s1, r⟩
    rw [hb] at hok
    cases r with
    | error e => simp at hok
    | ok u =>
      cases u
      obtain ⟨emprunt, he, hdocs, hemps, husers, hnext⟩ :=
        retourner_ok_elim hb
      obtain ⟨k1, k2, hesplit, hk1, -⟩ :=
        updateFirst_decomp (estEmpruntActif documentId userId) id
          s.emprunts emprunt he
      have hEmpPred : estEmpruntActif documentId userId emprunt = true :=
        List.find?_some he
      have hk2 : ∀ x ∈ k2, estEmpruntActif documentId userId x = false := by
        have h1c := hcount
        rw [hesplit, List.countP_append, List.countP_cons] at h1c
        have hz1 : k1.countP (estEmpruntActif documentId userId) = 0 :=
          List.countP_eq_zero.mpr (fun x hx => by simp [hk1 x hx])
        rw [hz1] at h1c
        simp only [hEmpPred, if_true] at h1c
        have hz2 : k2.countP (estEmpruntActif documentId userId) = 0 := by
          omega
        intro x hx
        have := List.countP_eq_zero.mp hz2 x hx
        simpa using this
      have hks : ∀ y ∈ k1, (y.id == emprunt.id) = false := by
        have hnd := hWF.2.2.1
        rw [hesplit] at hnd
        intro y hy
        simp only [beq_eq_false_iff_ne, ne_eq]
        exact key_not_in_rest (f := fun e => e.id) hnd y
          (List.mem_append.mpr (Or.inl hy))
      have hemps1 : s1.emprunts =
          k1 ++ cloreEmprunt now emprunt :: k2 := by
        rw [hemps, hesplit, updateFirst_append_of_none _ hks,
          updateFirst_cons_pos _ (by simp)]
      have hfind1 : s1.emprunts.find?
          (estEmpruntActif documentId userId) = none := by
        rw [hemps1]
        apply List.find?_eq_none.mpr
        intro x hx
        rcases mem_middle_cases hx with rfl | hrest
        · simp [estEmpruntActif, cloreEmprunt]
        · rcases List.mem_append.mp hrest with h1 | h2
          · simp [hk1 x h1]
          · simp [hk2 x h2]
      constructor
      · simp [retourner, hfind1]
      · simp [retourner, hfind1]

/-- Witness for C5: in `dbUnEmprunt` the only active loan is returned;
the second return fails and leaves the state unchanged. -/
theorem claim_C5_temoin :
    clesUniques dbUnEmprunt ∧
    dbUnEmprunt.emprunts.countP (estEmpruntActif 1 1) = 1 ∧
    (retourner dbUnEmprunt 1 1 0).2 = Except.ok () ∧
    (retourner (retourner dbUnEmprunt 1 1 0).1 1 1 5).2 =
      Except.error RetourErreur.pasEmprunte ∧
    (retourner (retourner dbUnEmprunt 1 1 0).1 1 1 5).1 =
      (retourner dbUnEmprunt 1 1 0).1 :=
  ⟨by decide, by decide, by decide,
   ((claim_C5 dbUnEmprunt 1 1 0 5 (by decide)).2.2 (by decide) (by decide)).1,
   ((claim_C5 dbUnEmprunt 1 1 0 5 (by decide)).2.2 (by decide) (by decide)).2⟩

/-- C4, counterexample to the claim as stated: from `dbPreEmprunt`,
Borrow(1, user 5) succeeds and Return(1, user 5) succeeds with no
intervening Return, yet the loan created by that Borrow (the last loan
record) still has status Active and a null return date — the Return
closed the older pre-existing loan instead. -/
theorem claim_C4_contre_exemple :
    (emprunter dbPreEmprunt 5 1 0).2 = Except.ok (0 + 30 * jourMs) ∧
    (retourner (emprunter dbPreEmprunt 5 1 0).1 5 1 1000).2 =
      Except.ok () ∧
    ((retourner (emprunter dbPreEmprunt 5 1 0).1 5 1 1000).1.emprunts.getLast?).map
        (fun e => e.statut) = some "emprunté" ∧
    ((retourner (emprunter dbPreEmprunt 5 1 0).1 5 1 1000).1.emprunts.getLast?).map
        (fun e => e.date_retour_reel) = some none := by
  decide

/-- C4 (amended): provided no Active loan for this (document, user)
pair existed before the Borrow, a successful Return following a
successful Borrow restores the document to available with cleared
borrower fields and its historical `reservations` counter kept at the
incremented value (not decremented), closes exactly the loan the Borrow
created (status Returned, return date set), and decrements the user's
counter by exactly one, restoring the user collection to its original
state. -/
theorem claim_C4 (s : DB) (userId documentId now now2 due : Nat)
    (hWF : clesUniques s)
    (hnoLoan : ∀ e ∈ s.emprunts, estEmpruntActif documentId userId e = false)
    (hB : (emprunter s userId documentId now).2 = Except.ok due)
    (hR : (retourner (emprunter s userId documentId now).1 userId documentId
        now2).2 = Except.ok ()) :
    (∃ l1 document l2,
      s.documents = l1 ++ document :: l2 ∧ document.id = documentId ∧
      (retourner (emprunter s userId documentId now).1 userId documentId
          now2).1.documents =
        l1 ++ { document with
                FIELD9 := "disponible"
                disponible := true
                emprunte_par := none
                date_emprunt := none
                reservations := document.reservations + 1 } :: l2) ∧
    (∃ n, (retourner (emprunter s userId documentId now).1 userId documentId
          now2).1.emprunts = s.emprunts ++ [n] ∧
      n.document_id = documentId ∧ n.utilisateur_id = userId ∧
      n.statut = "retourné" ∧ n.date_retour_reel = some now2) ∧
    (∃ m1 user1 m2,
      (emprunter s userId documentId now).1.utilisateurs =
        m1 ++ user1 :: m2 ∧
      (retourner (emprunter s userId documentId now).1 userId documentId
          now2).1.utilisateurs =
        m1 ++ { user1 with
                emprunts_actuels := user1.emprunts_actuels - 1 } :: m2) ∧
    (retourner (emprunter s userId documentId now).1 userId documentId
        now2).1.utilisateurs = s.utilisateurs := by
  rcases hb : emprunter s userId documentId now with ⟨s1, r⟩
  rw [hb] at hB hR
  cases r with
  | error e => simp at hB
  | ok d' =>
    have hd' : d' = due := by simpa using hB
    subst hd'
    obtain ⟨user, document, l1, l2, m1, m2, hu, hlim, huid, hdid, hf9,
      hsplit, husplit, hdue, hdocs, hemps, husers, hnext, hkD, hkU⟩ :=
      emprunter_ok_decomp hWF hb
    rcases hr : retourner s1 userId documentId now2 with ⟨s2, r2⟩
    rw [hr] at hR
    cases r2 with
    | error e => simp at hR
    | ok u =>
      cases u
      obtain ⟨emprunt, he, hdocs2, hemps2, husers2, hnext2⟩ :=
        retourner_ok_elim hr
      have hfind : s1.emprunts.find? (estEmpruntActif documentId userId) =
          some (nouvelEmprunt s.nextEmpruntId user document userId documentId
            now d') := by
        rw [hemps, find?_append_of_none _ hnoLoan]
        exact find?_cons_pos _ (by simp [estEmpruntActif, nouvelEmprunt])
      have hemp_eq : emprunt = nouvelEmprunt s.nextEmpruntId user document
          userId documentId now d' :=
        Option.some.inj (he.symm.trans hfind)
      have hdocs_final : s2.documents =
          l1 ++ retourMajDoc (empruntMajDoc user now document) :: l2 := by
        rw [hdocs2, hdocs,
          updateFirst_append_of_none _
            (fun y hy => by
              simp [hkD y (List.mem_append.mpr (Or.inl hy))]),
          updateFirst_cons_pos _ (by simp [empruntMajDoc, hdid])]
      have hkE : ∀ y ∈ s.emprunts,
          (y.id == (nouvelEmprunt s.nextEmpruntId user document userId
            documentId now d').id) = false := by
        intro y hy
        have := hWF.2.2.2 y hy
        simp [nouvelEmprunt]
        omega
      have hemps_final : s2.emprunts = s.emprunts ++
          [cloreEmprunt now2 (nouvelEmprunt s.nextEmpruntId user document
            userId documentId now d')] := by
        rw [hemps2, hemp_eq, hemps, updateFirst_append_of_none _ hkE,
          updateFirst_cons_pos _ (by simp)]
      have husers_final : s2.utilisateurs =
          m1 ++ decCompteur (incCompteur user) :: m2 := by
        rw [husers2, husers,
          updateFirst_append_of_none _
            (fun y hy => by
              simp [hkU y (List.mem_append.mpr (Or.inl hy))]),
          updateFirst_cons_pos _ (by simp [incCompteur, huid])]
      have hdec_inc : decCompteur (incCompteur user) = user := by
        cases user with
        | mk i n e r l c => simp [decCompteur, incCompteur]
      refine ⟨⟨l1, document, l2, hsplit, hdid, by rw [hdocs_final]; rfl⟩,
        ⟨cloreEmprunt now2 (nouvelEmprunt s.nextEmpruntId user document
          userId documentId now d'), hemps_final, rfl, rfl, rfl, rfl⟩,
        ⟨m1, incCompteur user, m2, husers, by rw [husers_final]; rfl⟩, ?_⟩
      rw [husers_final, hdec_inc, husplit]

/-- Witness for C4 at the healthy store: borrow then return restores
the user collection exactly. -/
theorem claim_C4_temoin :
    clesUniques dbSain ∧
    (∀ e ∈ dbSain.emprunts, estEmpruntActif 1 1 e = false) ∧
    (emprunter dbSain 1 1 0).2 = Except.ok (0 + 30 * jourMs) ∧
    (retourner (emprunter dbSain 1 1 0).1 1 1 99).2 = Except.ok () ∧
    (retourner (emprunter dbSain 1 1 0).1 1 1 99).1.utilisateurs =
      dbSain.utilisateurs :=
  ⟨by decide, by decide, by decide, by decide,
   (claim_C4 dbSain 1 1 0 99 (0 + 30 * jourMs) (by decide) (by decide)
     (by decide) (by decide)).2.2.2⟩

/-- C6: every successful Borrow computes the due date as the borrow
timestamp plus exactly 30 days, stores it in the created loan's
`date_retour_prevu`, and answers the caller with exactly that value. -/
theorem claim_C6 (s : DB) (userId documentId now due : Nat)
    (h : (emprunter s userId documentId now).2 = Except.ok due) :
    due = now + 30 * jourMs ∧
    ∃ n, (emprunter s userId documentId now).1.emprunts =
        s.emprunts ++ [n] ∧
      n.date_retour_prevu = now + 30 * jourMs := by
  rcases hb : emprunter s userId documentId now with ⟨s1, r⟩
  rw [hb] at h
  cases r with
  | error e => simp at h
  | ok d' =>
    have hd' : d' = due := by simpa using h
    obtain ⟨user, document, hu, hlim, hd, hdue, hdocs, hemps, husers,
      hnext⟩ := emprunter_ok_elim hb
    refine ⟨by rw [← hd', hdue], ?_⟩
    exact ⟨nouvelEmprunt s.nextEmpruntId user document userId documentId now
      (now + 30 * jourMs), by rw [hemps], rfl⟩

/-- Witness for C6 at the healthy store. -/
theorem claim_C6_temoin :
    (emprunter dbSain 1 1 0).2 = Except.ok (0 + 30 * jourMs) ∧
    (0 + 30 * jourMs = 0 + 30 * jourMs ∧
     ∃ n, (emprunter dbSain 1 1 0).1.emprunts = dbSain.emprunts ++ [n] ∧
       n.date_retour_prevu = 0 + 30 * jourMs) :=
  ⟨by decide, claim_C6 dbSain 1 1 0 (0 + 30 * jourMs) (by decide)⟩

/-- C7: the dashboard's overdue query is a pure read, and its filter
keeps exactly the loans with Active status and a due date strictly
before the reference time — so a Returned loan is never counted even
when its due date is in the past. -/
theorem claim_C7 (s : DB) (asOf : Nat) :
    (adminDashboard s asOf).1 = s ∧
    (adminDashboard s asOf).2.empruntsRetard =
      (empruntsEnRetard s asOf).length ∧
    ∀ e, e ∈ empruntsEnRetard s asOf ↔
      (e ∈ s.emprunts ∧ e.statut = "emprunté" ∧
        e.date_retour_prevu < asOf) := by
  refine ⟨rfl, rfl, ?_⟩
  intro e
  unfold empruntsEnRetard
  rw [List.mem_filter]
  simp [and_assoc]

/-- C8: Toggle on an existing document flips only that document's
`FIELD9` between available and borrowed, and nothing else changes: no
loan is created or closed, no user record is touched, and all other
fields of every document (including the boolean `disponible`) are left
as they were. -/
theorem claim_C8 (s : DB) (documentId : Nat) (doc : Document)
    (hf : s.documents.find? (fun d => d.id == documentId) = some doc) :
    ∃ l1 l2,
      s.documents = l1 ++ doc :: l2 ∧
      (doc.FIELD9 = "disponible" →
        (toggle s documentId).1.documents =
          l1 ++ { doc with FIELD9 := "emprunté" } :: l2) ∧
      (doc.FIELD9 = "emprunté" →
        (toggle s documentId).1.documents =
          l1 ++ { doc with FIELD9 := "disponible" } :: l2) ∧
      (toggle s documentId).1.utilisateurs = s.utilisateurs ∧
      (toggle s documentId).1.emprunts = s.emprunts ∧
      (toggle s documentId).1.nextEmpruntId = s.nextEmpruntId := by
  have hdoc_id : doc.id = documentId := by simpa using List.find?_some hf
  have hf2 : s.documents.find? (fun d => d.id == doc.id) = some doc := by
    rw [hdoc_id]; exact hf
  obtain ⟨l1, l2, hsplit, hl1, hupd⟩ :=
    updateFirst_decomp (fun d => d.id == doc.id)
      (fun d => { d with FIELD9 :=
        if doc.FIELD9 == "emprunté" then "disponible" else "emprunté" })
      s.documents doc hf2
  refine ⟨l1, l2, hsplit, ?_, ?_, ?_, ?_, ?_⟩
  · intro h9
    simp only [toggle, hf]
    rw [hupd]
    simp [h9]
  · intro h9
    simp only [toggle, hf]
    rw [hupd]
    simp [h9]
  · simp only [toggle, hf]
  · simp only [toggle, hf]
  · simp only [toggle, hf]

/-- Witness for C8: toggling the available document of the healthy
store marks it borrowed and changes nothing else. -/
theorem claim_C8_temoin :
    dbSain.documents.find? (fun d => d.id == 1) = some (docDisponible 1) ∧
    ∃ l1 l2,
      dbSain.documents = l1 ++ docDisponible 1 :: l2 ∧
      ((docDisponible 1).FIELD9 = "disponible" →
        (toggle dbSain 1).1.documents =
          l1 ++ { docDisponible 1 with FIELD9 := "emprunté" } :: l2) ∧
      ((docDisponible 1).FIELD9 = "emprunté" →
        (toggle dbSain 1).1.documents =
          l1 ++ { docDisponible 1 with FIELD9 := "disponible" } :: l2) ∧
      (toggle dbSain 1).1.utilisateurs = dbSain.utilisateurs ∧
      (toggle dbSain 1).1.emprunts = dbSain.emprunts ∧
      (toggle dbSain 1).1.nextEmpruntId = dbSain.nextEmpruntId :=
  ⟨by decide, claim_C8 dbSain 1 (docDisponible 1) (by decide)⟩

/-- C10: assuming every document currently satisfies the
synchronization predicate between the boolean `disponible` and the
label `FIELD9`, every document still satisfies it after Borrow (both
set to borrowed), after Return (both set to available), and after
admin document creation (both initialized to available) — whether the
operation succeeds or fails. -/
theorem claim_C10 (s : DB) (userId documentId docId now now2 now3 : Nat)
    (titre auteur : String) (tdoc : Option String) (annee : Option Int)
    (anneeCourante : Int)
    (hsync : ∀ d ∈ s.documents, SyncDoc d) :
    (∀ d ∈ (emprunter s userId documentId now).1.documents, SyncDoc d) ∧
    (∀ d ∈ (retourner s userId documentId now2).1.documents, SyncDoc d) ∧
    (∀ d ∈ (ajouterDocument s docId titre auteur tdoc annee anneeCourante
        now3).1.documents, SyncDoc d) := by
  refine ⟨?_, ?_, ?_⟩
  · rcases hb : emprunter s userId documentId now with ⟨s1, r⟩
    cases r with
    | error e =>
      rw [emprunter_erreur_elim hb]
      exact hsync
    | ok d' =>
      obtain ⟨user, document, hu, hlim, hd, hdue, hdocs, hemps, husers,
        hnext⟩ := emprunter_ok_elim hb
      intro d hd'
      rw [hdocs] at hd'
      rcases mem_updateFirst hd' with h' | ⟨x, hx, rfl⟩
      · exact hsync d h'
      · simp [SyncDoc, empruntMajDoc]
  · rcases hb : retourner s userId documentId now2 with ⟨s1, r⟩
    cases r with
    | error e =>
      rw [retourner_erreur_elim hb]
      exact hsync
    | ok u =>
      cases u
      obtain ⟨emprunt, he, hdocs, hemps, husers, hnext⟩ :=
        retourner_ok_elim hb
      intro d hd'
      rw [hdocs] at hd'
      rcases mem_updateFirst hd' with h' | ⟨x, hx, rfl⟩
      · exact hsync d h'
      · simp [SyncDoc, retourMajDoc]
  · intro d hd'
    unfold ajouterDocument at hd'
    split at hd'
    · exact hsync d hd'
    · rcases List.mem_append.mp hd' with h' | h'
      · exact hsync d h'
      · rcases List.mem_cons.mp h' with rfl | h''
        · simp [SyncDoc]
        · simp at h''

/-- Witness for C10 at the healthy store. -/
theorem claim_C10_temoin :
    (∀ d ∈ dbSain.documents, SyncDoc d) ∧
    (∀ d ∈ (emprunter dbSain 1 1 0).1.documents, SyncDoc d) ∧
    (∀ d ∈ (retourner dbSain 1 1 5).1.documents, SyncDoc d) ∧
    (∀ d ∈ (ajouterDocument dbSain 2 "T2" "A2" none none 2024
        7).1.documents, SyncDoc d) :=
  ⟨by decide,
   (claim_C10 dbSain 1 1 2 0 5 7 "T2" "A2" none none 2024 (by decide)).1,
   (claim_C10 dbSain 1 1 2 0 5 7 "T2" "A2" none none 2024 (by decide)).2.1,
   (claim_C10 dbSain 1 1 2 0 5 7 "T2" "A2" none none 2024 (by decide)).2.2⟩
